import Mathlib

/-!
Shallow embedding of the repository's single source file,
scripts/pre_build.py: a pre-build hook that scans the build flags for a
BOARD_MODEL= marker, prints a log line for the extracted board model, and
ensures the firmware output directory exists before the build proceeds.

Strings are modelled by Lean's String, paths by lists of segments, the
filesystem by the set of existing directories plus the set of paths where
creation is denied, and the console by the list of printed lines.
-/

set_option autoImplicit false

namespace PreBuild

/-- Filesystem paths are modelled as lists of segments; os.path.join with a
literal segment appends that segment. -/
abbrev Path := List String

/-- Python str.split with a single-character separator, over the character
list of the string: splits at every occurrence of the separator. -/
def splitOnChar (sep : Char) : List Char → List (List Char)
  | [] => [[]]
  | c :: cs =>
    if c = sep then [] :: splitOnChar sep cs
    else
      match splitOnChar sep cs with
      | [] => [[c]]
      | s :: ss => (c :: s) :: ss

/-- Python flag.split with separator the equals sign, as in the source line
board_model = flag.split on equals, index 1. -/
def pySplitEq (s : String) : List String :=
  (splitOnChar '=' s.toList).map String.mk

/-- Substring test on character lists: does the needle occur contiguously? -/
def isSubchars (needle : List Char) : List Char → Bool
  | [] => needle.isEmpty
  | c :: cs => needle.isPrefixOf (c :: cs) || isSubchars needle cs

/-- Python substring containment, needle in hay, for strings. -/
def pyContains (hay needle : String) : Bool :=
  isSubchars needle.toList hay.toList

/-- The marker substring the source scans each build flag for. -/
def boardModelMarker : String := "BOARD_MODEL="

/-- The scanning loop of pre_build_action: walk the BUILD_FLAGS list, and at
the first flag containing the marker take field 1 of the flag split on the
equals sign, then break; absent a match the board model stays None. -/
def scanBoardModel : List String → Option String
  | [] => none
  | flag :: rest =>
    if pyContains flag boardModelMarker then (pySplitEq flag)[1]?
    else scanBoardModel rest

/-- Head of the log line printed by the hook. -/
def logHead : String := "[Geogram] Building for board model: "

/-- The console lines the hook prints: Python prints the log line only when
board_model is truthy, that is neither None nor the empty string. -/
def logLines (flags : List String) : List String :=
  match scanBoardModel flags with
  | none => []
  | some v => if v = "" then [] else [logHead ++ v]

/-- Filesystem error raised by os.makedirs, such as permission denied. -/
inductive OSError where
  | permissionDenied (p : Path)
  deriving DecidableEq, Repr

/-- Filesystem state: the directories that exist, and the paths at which a
creation attempt raises an error such as permission denied. -/
structure FS where
  dirs : List Path
  denied : List Path
  deriving DecidableEq, Repr

/-- All nonempty ancestors of a path, shortest first: the directories that
os.makedirs must ensure exist. -/
def pathPrefixes : Path → List Path
  | [] => []
  | s :: rest => [s] :: (pathPrefixes rest).map (fun q => s :: q)

/-- Model of os.makedirs with exist_ok set to True: create every missing
ancestor of the path, succeeding silently on ancestors that already exist,
and raise a filesystem error if some missing ancestor is denied. -/
def makedirs (p : Path) (fs : FS) : Except OSError FS :=
  if (pathPrefixes p).any (fun q => decide (q ∈ fs.denied ∧ q ∉ fs.dirs)) then
    .error (.permissionDenied p)
  else
    .ok { dirs := fs.dirs ++ (pathPrefixes p).filter (fun q => decide (q ∉ fs.dirs)),
          denied := fs.denied }

/-- The part of the host build environment the hook reads: the BUILD_FLAGS
list and the substituted PROJECT_DIR path. -/
structure Env where
  buildFlags : List String
  projectDir : Path
  deriving DecidableEq, Repr

/-- Observable world state: the console lines printed so far and the
filesystem. -/
structure World where
  console : List String
  fs : FS
  deriving DecidableEq, Repr

/-- Result of one run of the hook: the environment (which the hook never
writes), the world afterwards, and the propagated error, if any. -/
structure HookResult where
  env : Env
  world : World
  error : Option OSError
  deriving DecidableEq, Repr

/-- The firmware output directory: os.path.join of the project directory
with the literal segment firmware. -/
def firmwareDir (e : Env) : Path := e.projectDir ++ ["firmware"]

/-- The hook pre_build_action: scan the build flags, print the log line when
the extracted board model is truthy, then ensure the firmware directory
exists; a filesystem error from makedirs is propagated uncaught, after the
printing has already happened. -/
def pre_build_action (e : Env) (w : World) : HookResult :=
  let console1 := w.console ++ logLines e.buildFlags
  match makedirs (firmwareDir e) w.fs with
  | .ok fs1 => { env := e, world := { console := console1, fs := fs1 }, error := none }
  | .error err => { env := e, world := { console := console1, fs := w.fs }, error := some err }

/-! Helper lemmas about the character-level string operations. -/

theorem isPrefixOf_append (n t : List Char) : n.isPrefixOf (n ++ t) = true := by
  induction n with
  | nil => simp
  | cons a as ih => simp [List.isPrefixOf_cons₂, ih]

theorem isSubchars_append_left (n t : List Char) : isSubchars n (n ++ t) = true := by
  cases n with
  | nil =>
    cases t with
    | nil => rfl
    | cons c cs => simp [isSubchars]
  | cons a as => simp [isSubchars, isPrefixOf_append]

theorem isPrefixOf_subset {n h : List Char} (hp : n.isPrefixOf h = true) :
    ∀ c ∈ n, c ∈ h := by
  induction n generalizing h with
  | nil => intro c hc; cases hc
  | cons a as ih =>
    cases h with
    | nil => simp [List.isPrefixOf] at hp
    | cons b bs =>
      simp only [List.isPrefixOf, Bool.and_eq_true, beq_iff_eq] at hp
      rcases hp with ⟨rfl, htail⟩
      intro c hc
      rcases List.mem_cons.mp hc with rfl | hc
      · exact List.mem_cons_self _ _
      · exact List.mem_cons_of_mem _ (ih htail c hc)

theorem isSubchars_subset {n h : List Char} (hs : isSubchars n h = true) :
    ∀ c ∈ n, c ∈ h := by
  induction h with
  | nil =>
    intro c hc
    simp only [isSubchars, List.isEmpty_iff] at hs
    subst hs
    cases hc
  | cons b bs ih =>
    simp only [isSubchars, Bool.or_eq_true] at hs
    intro c hc
    rcases hs with hp | hrec
    · exact isPrefixOf_subset hp c hc
    · exact List.mem_cons_of_mem _ (ih hrec c hc)

theorem splitOnChar_cons (sep c : Char) (cs : List Char) :
    splitOnChar sep (c :: cs) =
      if c = sep then [] :: splitOnChar sep cs
      else
        match splitOnChar sep cs with
        | [] => [[c]]
        | s :: ss => (c :: s) :: ss := rfl

theorem splitOnChar_cons_self (sep : Char) (cs : List Char) :
    splitOnChar sep (sep :: cs) = [] :: splitOnChar sep cs := by
  rw [splitOnChar_cons, if_pos rfl]

theorem splitOnChar_cons_ne {sep c : Char} (hc : c ≠ sep) {cs s : List Char}
    {ss : List (List Char)} (hr : splitOnChar sep cs = s :: ss) :
    splitOnChar sep (c :: cs) = (c :: s) :: ss := by
  rw [splitOnChar_cons, if_neg hc, hr]

theorem splitOnChar_ne_nil (sep : Char) (cs : List Char) : splitOnChar sep cs ≠ [] := by
  cases cs with
  | nil => simp [splitOnChar]
  | cons c cs =>
    simp only [splitOnChar]
    split
    · simp
    · split <;> simp

theorem two_le_splitOnChar_length {sep : Char} {cs : List Char} (h : sep ∈ cs) :
    2 ≤ (splitOnChar sep cs).length := by
  induction cs with
  | nil => cases h
  | cons c cs ih =>
    by_cases hc : c = sep
    · subst hc
      rw [splitOnChar_cons_self, List.length_cons]
      have hpos : 0 < (splitOnChar c cs).length :=
        List.length_pos.mpr (splitOnChar_ne_nil c cs)
      omega
    · have hmem : sep ∈ cs := by
        rcases List.mem_cons.mp h with h1 | h1
        · exact absurd h1.symm hc
        · exact h1
      have h2 := ih hmem
      cases hr : splitOnChar sep cs with
      | nil => exact absurd hr (splitOnChar_ne_nil sep cs)
      | cons s ss =>
        rw [splitOnChar_cons_ne hc hr]
        rw [hr] at h2
        simpa using h2

theorem splitOnChar_of_not_mem {sep : Char} {cs : List Char} (h : ∀ c ∈ cs, c ≠ sep) :
    splitOnChar sep cs = [cs] := by
  induction cs with
  | nil => rfl
  | cons c cs ih =>
    have hc : c ≠ sep := h c (List.mem_cons_self c cs)
    have ih2 := ih (fun x hx => h x (List.mem_cons_of_mem c hx))
    rw [splitOnChar_cons_ne hc ih2]

theorem splitOnChar_append_sep {sep : Char} {pre : List Char} (h : ∀ c ∈ pre, c ≠ sep)
    (rest : List Char) :
    splitOnChar sep (pre ++ sep :: rest) = pre :: splitOnChar sep rest := by
  induction pre with
  | nil => rw [List.nil_append, splitOnChar_cons_self]
  | cons c cs ih =>
    have hc : c ≠ sep := h c (List.mem_cons_self c cs)
    have ih2 := ih (fun x hx => h x (List.mem_cons_of_mem c hx))
    rw [List.cons_append, splitOnChar_cons_ne hc ih2]

theorem toList_append (a b : String) : (a ++ b).toList = a.toList ++ b.toList := by
  cases a
  cases b
  rfl

theorem mk_toList (s : String) : String.mk s.toList = s := rfl

theorem boardModelMarker_toList :
    boardModelMarker.toList = "BOARD_MODEL".toList ++ ['='] := by decide

theorem eq_mem_marker : '=' ∈ boardModelMarker.toList := by decide

/-! Helper lemmas about the flag scanner. -/

theorem getElem1_isSome_of_contains {f : String} (h : pyContains f boardModelMarker = true) :
    ((pySplitEq f)[1]?).isSome = true := by
  have hm : '=' ∈ f.toList := isSubchars_subset h '=' eq_mem_marker
  have h2 : 2 ≤ (splitOnChar '=' f.toList).length := two_le_splitOnChar_length hm
  have h3 : 1 < (pySplitEq f).length := by
    rw [pySplitEq, List.length_map]
    omega
  rw [List.getElem?_eq_getElem h3]
  rfl

theorem scanBoardModel_cons_pos {f : String} (h : pyContains f boardModelMarker = true)
    (rest : List String) :
    scanBoardModel (f :: rest) = (pySplitEq f)[1]? := by
  simp [scanBoardModel, h]

theorem scanBoardModel_cons_neg {f : String} (h : pyContains f boardModelMarker = false)
    (rest : List String) :
    scanBoardModel (f :: rest) = scanBoardModel rest := by
  simp [scanBoardModel, h]

theorem scanBoardModel_append_of_none {l1 : List String}
    (h : ∀ g ∈ l1, pyContains g boardModelMarker = false) (l : List String) :
    scanBoardModel (l1 ++ l) = scanBoardModel l := by
  induction l1 with
  | nil => rfl
  | cons g gs ih =>
    rw [List.cons_append, scanBoardModel_cons_neg (h g (List.mem_cons_self g gs)),
      ih (fun x hx => h x (List.mem_cons_of_mem g hx))]

theorem scanBoardModel_eq_none {flags : List String}
    (h : ∀ g ∈ flags, pyContains g boardModelMarker = false) :
    scanBoardModel flags = none := by
  have h0 := scanBoardModel_append_of_none h []
  simpa using h0

theorem scanBoardModel_first_match {l1 : List String} {f : String}
    (h1 : ∀ g ∈ l1, pyContains g boardModelMarker = false)
    (h2 : pyContains f boardModelMarker = true) (l2 : List String) :
    scanBoardModel (l1 ++ f :: l2) = (pySplitEq f)[1]? := by
  rw [scanBoardModel_append_of_none h1, scanBoardModel_cons_pos h2]

theorem pySplitEq_marker_append {X : String} (hX : ∀ c ∈ X.toList, c ≠ '=') :
    pySplitEq (boardModelMarker ++ X) = ["BOARD_MODEL", X] := by
  have h1 : (boardModelMarker ++ X).toList = "BOARD_MODEL".toList ++ '=' :: X.toList := by
    rw [toList_append, boardModelMarker_toList, List.append_assoc]
    rfl
  have h2 : ∀ c ∈ ("BOARD_MODEL".toList : List Char), c ≠ '=' := by decide
  rw [pySplitEq, h1, splitOnChar_append_sep h2, splitOnChar_of_not_mem hX]
  simp [mk_toList]

theorem pyContains_marker_append (X : String) :
    pyContains (boardModelMarker ++ X) boardModelMarker = true := by
  rw [pyContains, toList_append]
  exact isSubchars_append_left _ _

/-! Helper lemmas about the log lines. -/

theorem logLines_eq_of_some {flags : List String} {v : String}
    (h : scanBoardModel flags = some v) (hv : v ≠ "") :
    logLines flags = [logHead ++ v] := by
  rw [logLines, h]
  exact if_neg hv

theorem logLines_eq_nil_of_none {flags : List String} (h : scanBoardModel flags = none) :
    logLines flags = [] := by
  rw [logLines, h]

theorem logLines_eq_nil_of_empty {flags : List String}
    (h : scanBoardModel flags = some ("")) :
    logLines flags = [] := by
  rw [logLines, h]
  exact if_pos rfl

theorem logLines_length_le (flags : List String) : (logLines flags).length ≤ 1 := by
  rw [logLines]
  split
  · simp
  · split <;> simp

/-! Helper lemmas about makedirs. -/

theorem makedirs_eq_ok {p : Path} {fs fs' : FS} (h : makedirs p fs = .ok fs') :
    ((pathPrefixes p).any (fun q => decide (q ∈ fs.denied ∧ q ∉ fs.dirs)) = false) ∧
    fs' = { dirs := fs.dirs ++ (pathPrefixes p).filter (fun q => decide (q ∉ fs.dirs)),
            denied := fs.denied } := by
  rw [makedirs] at h
  split at h
  · cases h
  case isFalse hcond =>
    refine ⟨Bool.eq_false_iff.mpr hcond, ?_⟩
    cases h
    rfl

theorem makedirs_ok_of_any_false {p : Path} {fs : FS}
    (h : (pathPrefixes p).any (fun q => decide (q ∈ fs.denied ∧ q ∉ fs.dirs)) = false) :
    makedirs p fs =
      .ok { dirs := fs.dirs ++ (pathPrefixes p).filter (fun q => decide (q ∉ fs.dirs)),
            denied := fs.denied } := by
  rw [makedirs, if_neg (by rw [h]; exact Bool.false_ne_true)]

theorem makedirs_error_iff {p : Path} {fs : FS} :
    (∃ err, makedirs p fs = .error err) ↔
      ∃ q ∈ pathPrefixes p, q ∈ fs.denied ∧ q ∉ fs.dirs := by
  rw [makedirs]
  split
  case isTrue h =>
    simp only [List.any_eq_true, decide_eq_true_eq] at h
    constructor
    · intro _
      exact h
    · intro _
      exact ⟨_, rfl⟩
  case isFalse h =>
    constructor
    · rintro ⟨err, herr⟩
      exact Except.noConfusion herr
    · intro hex
      exfalso
      apply h
      simp only [List.any_eq_true, decide_eq_true_eq]
      exact hex

theorem makedirs_ok_mem_of_mem_pathPrefixes {p : Path} {fs fs' : FS}
    (h : makedirs p fs = .ok fs') :
    ∀ q ∈ pathPrefixes p, q ∈ fs'.dirs := by
  intro q hq
  rcases makedirs_eq_ok h with ⟨_, rfl⟩
  by_cases hd : q ∈ fs.dirs
  · exact List.mem_append_left _ hd
  · exact List.mem_append_right _ (List.mem_filter.mpr ⟨hq, decide_eq_true hd⟩)

theorem makedirs_ok_denied {p : Path} {fs fs' : FS} (h : makedirs p fs = .ok fs') :
    fs'.denied = fs.denied := by
  rcases makedirs_eq_ok h with ⟨_, rfl⟩
  rfl

theorem makedirs_ok_dirs_grow {p : Path} {fs fs' : FS} (h : makedirs p fs = .ok fs') :
    ∀ q ∈ fs.dirs, q ∈ fs'.dirs := by
  intro q hq
  rcases makedirs_eq_ok h with ⟨_, rfl⟩
  exact List.mem_append_left _ hq

theorem makedirs_ok_dirs_cases {p : Path} {fs fs' : FS} (h : makedirs p fs = .ok fs') :
    ∀ q ∈ fs'.dirs, q ∈ fs.dirs ∨ q ∈ pathPrefixes p := by
  intro q hq
  rcases makedirs_eq_ok h with ⟨_, rfl⟩
  rcases List.mem_append.mp hq with hin | hin
  · exact Or.inl hin
  · exact Or.inr (List.mem_filter.mp hin).1

theorem makedirs_ok_of_denied_nil {p : Path} {fs : FS} (h : fs.denied = []) :
    ∃ fs', makedirs p fs = .ok fs' := by
  refine ⟨_, makedirs_ok_of_any_false ?_⟩
  rw [List.any_eq_false]
  intro q hq
  simp [h]

theorem makedirs_idem {p : Path} {fs fs' : FS} (h : makedirs p fs = .ok fs') :
    makedirs p fs' = .ok fs' := by
  have hmem := makedirs_ok_mem_of_mem_pathPrefixes h
  have hany : (pathPrefixes p).any (fun q => decide (q ∈ fs'.denied ∧ q ∉ fs'.dirs)) = false := by
    rw [List.any_eq_false]
    intro q hq
    simp [hmem q hq]
  have hfil : (pathPrefixes p).filter (fun q => decide (q ∉ fs'.dirs)) = [] := by
    rw [List.filter_eq_nil_iff]
    intro q hq
    simp [hmem q hq]
  rw [makedirs_ok_of_any_false hany, hfil, List.append_nil]

theorem self_mem_pathPrefixes {p : Path} (h : p ≠ []) : p ∈ pathPrefixes p := by
  induction p with
  | nil => exact absurd rfl h
  | cons s rest ih =>
    cases rest with
    | nil => simp [pathPrefixes]
    | cons t ts =>
      have hmem : (t :: ts) ∈ pathPrefixes (t :: ts) := ih (by simp)
      show s :: t :: ts ∈ [s] :: (pathPrefixes (t :: ts)).map (fun q => s :: q)
      exact List.mem_cons_of_mem _ (List.mem_map.mpr ⟨t :: ts, hmem, rfl⟩)

theorem firmwareDir_ne_nil (e : Env) : firmwareDir e ≠ [] := by
  simp [firmwareDir]

/-! Helper lemmas about the hook itself. -/

theorem pre_build_action_of_ok {e : Env} {w : World} {fs1 : FS}
    (hm : makedirs (firmwareDir e) w.fs = .ok fs1) :
    pre_build_action e w =
      { env := e,
        world := { console := w.console ++ logLines e.buildFlags, fs := fs1 },
        error := none } := by
  rw [pre_build_action, hm]

theorem pre_build_action_of_error {e : Env} {w : World} {err : OSError}
    (hm : makedirs (firmwareDir e) w.fs = .error err) :
    pre_build_action e w =
      { env := e,
        world := { console := w.console ++ logLines e.buildFlags, fs := w.fs },
        error := some err } := by
  rw [pre_build_action, hm]

theorem pre_build_action_env (e : Env) (w : World) : (pre_build_action e w).env = e := by
  cases hm : makedirs (firmwareDir e) w.fs with
  | ok fs1 => rw [pre_build_action_of_ok hm]
  | error err => rw [pre_build_action_of_error hm]

theorem pre_build_action_console (e : Env) (w : World) :
    (pre_build_action e w).world.console = w.console ++ logLines e.buildFlags := by
  cases hm : makedirs (firmwareDir e) w.fs with
  | ok fs1 => rw [pre_build_action_of_ok hm]
  | error err => rw [pre_build_action_of_error hm]

theorem pre_build_action_error_some {e : Env} {w : World} {err : OSError}
    (h : (pre_build_action e w).error = some err) :
    makedirs (firmwareDir e) w.fs = .error err := by
  cases hm : makedirs (firmwareDir e) w.fs with
  | ok fs1 =>
    rw [pre_build_action_of_ok hm] at h
    cases h
  | error err2 =>
    rw [pre_build_action_of_error hm] at h
    cases h
    rfl

theorem pre_build_action_error_none {e : Env} {w : World}
    (h : (pre_build_action e w).error = none) :
    makedirs (firmwareDir e) w.fs = .ok (pre_build_action e w).world.fs := by
  cases hm : makedirs (firmwareDir e) w.fs with
  | ok fs1 =>
    rw [pre_build_action_of_ok hm]
  | error err =>
    rw [pre_build_action_of_error hm] at h
    cases h

theorem pre_build_action_error_flag_free (e : Env) (w : World) (flags' : List String) :
    (pre_build_action { buildFlags := flags', projectDir := e.projectDir } w).error =
    (pre_build_action e w).error := by
  have hfd : firmwareDir { buildFlags := flags', projectDir := e.projectDir } = firmwareDir e :=
    rfl
  cases hm : makedirs (firmwareDir e) w.fs with
  | ok fs1 =>
    rw [pre_build_action_of_ok hm, pre_build_action_of_ok (hfd ▸ hm)]
  | error err =>
    rw [pre_build_action_of_error hm, pre_build_action_of_error (hfd ▸ hm)]

/-! Claim theorems. -/

/-- C1, counterexample: on the flags list holding the single flag
BOARD_MODEL=a=b, the scanner returns the field between the first and the
second equals sign, the string a, and not the substring after the first
equals sign, the string a=b, so the claim as stated fails. -/
theorem C1_counterexample :
    scanBoardModel ["BOARD_MODEL=a=b"] = some ("a") ∧ "a" ≠ "a=b" := by
  decide

/-- C1, amended: the scanner finds the first flag containing the marker
BOARD_MODEL= and returns field 1 of that flag split on every equals sign,
that is, the substring between the flag's first and second equals sign, up
to the end of the flag when there is no second one; in particular, for
every string X containing no equals sign, when the first marker-containing
flag is BOARD_MODEL=X the scanner returns X. -/
theorem C1_theorem :
    (∀ (l1 : List String) (f : String) (l2 : List String),
        (∀ g ∈ l1, pyContains g boardModelMarker = false) →
        pyContains f boardModelMarker = true →
        scanBoardModel (l1 ++ f :: l2) = (pySplitEq f)[1]?) ∧
    (∀ (l1 : List String) (X : String) (l2 : List String),
        (∀ g ∈ l1, pyContains g boardModelMarker = false) →
        (∀ c ∈ X.toList, c ≠ '=') →
        scanBoardModel (l1 ++ (boardModelMarker ++ X) :: l2) = some X) := by
  constructor
  · intro l1 f l2 h1 h2
    exact scanBoardModel_first_match h1 h2 l2
  · intro l1 X l2 h1 hX
    rw [scanBoardModel_first_match h1 (pyContains_marker_append X) l2,
      pySplitEq_marker_append hX]
    rfl

/-- Witness for C1: a concrete instance of the amended claim, with one
non-matching flag before the value flag and one matching flag after it. -/
theorem C1_witness :
    scanBoardModel (["OTHER=1"] ++ (boardModelMarker ++ "esp32") :: ["BOARD_MODEL=x"]) =
      some ("esp32") :=
  C1_theorem.2 ["OTHER=1"] ("esp32") ["BOARD_MODEL=x"] (by decide) (by decide)

/-- C2: whenever the scanner finds a board-model value, that is a truthy
and hence nonempty one, the hook appends to the console exactly the line
made of the log head and that value; in particular, on the flags
BOARD_MODEL=esp32 and OTHER=1 from an empty console the output is exactly
the one line for esp32. -/
theorem C2_theorem :
    (∀ (e : Env) (w : World) (v : String),
        scanBoardModel e.buildFlags = some v → v ≠ "" →
        (pre_build_action e w).world.console = w.console ++ [logHead ++ v]) ∧
    (pre_build_action
        { buildFlags := ["BOARD_MODEL=esp32", "OTHER=1"], projectDir := ["proj"] }
        { console := [], fs := { dirs := [], denied := [] } }).world.console =
      ["[Geogram] Building for board model: esp32"] := by
  constructor
  · intro e w v h hv
    rw [pre_build_action_console, logLines_eq_of_some h hv]
  · decide

/-- Witness for C2: the general console statement applied at a concrete
environment and world. -/
theorem C2_witness :
    (pre_build_action { buildFlags := ["BOARD_MODEL=m5stack"], projectDir := ["p"] }
        { console := [], fs := { dirs := [], denied := [] } }).world.console =
      [] ++ [logHead ++ "m5stack"] :=
  C2_theorem.1 { buildFlags := ["BOARD_MODEL=m5stack"], projectDir := ["p"] }
    { console := [], fs := { dirs := [], denied := [] } } ("m5stack") (by decide) (by decide)

/-- C3: with no marker-containing flag before it, the first flag containing
BOARD_MODEL= determines the scanner's result, and the flags after it are
ignored: replacing them does not change the result. -/
theorem C3_theorem :
    ∀ (l1 : List String) (f : String) (l2 l2' : List String),
      (∀ g ∈ l1, pyContains g boardModelMarker = false) →
      pyContains f boardModelMarker = true →
      scanBoardModel (l1 ++ f :: l2) = (pySplitEq f)[1]? ∧
      scanBoardModel (l1 ++ f :: l2) = scanBoardModel (l1 ++ f :: l2') := by
  intro l1 f l2 l2' h1 h2
  constructor
  · exact scanBoardModel_first_match h1 h2 l2
  · rw [scanBoardModel_first_match h1 h2 l2, scanBoardModel_first_match h1 h2 l2']

/-- Witness for C3: two matching flags, the first one wins and the second
may be replaced without changing the result. -/
theorem C3_witness :
    scanBoardModel (["X=1"] ++ "BOARD_MODEL=a" :: ["BOARD_MODEL=b"]) =
      (pySplitEq ("BOARD_MODEL=a"))[1]? ∧
    scanBoardModel (["X=1"] ++ "BOARD_MODEL=a" :: ["BOARD_MODEL=b"]) =
      scanBoardModel (["X=1"] ++ "BOARD_MODEL=a" :: ["BOARD_MODEL=c"]) :=
  C3_theorem ["X=1"] ("BOARD_MODEL=a") ["BOARD_MODEL=b"] ["BOARD_MODEL=c"]
    (by decide) (by decide)

/-- C4: when no build flag contains the marker BOARD_MODEL=, the scanner
returns none, the hook prints nothing, and no error arises from the scan:
with nothing denied on the filesystem the run reports no error at all. -/
theorem C4_theorem :
    ∀ (e : Env) (w : World),
      (∀ g ∈ e.buildFlags, pyContains g boardModelMarker = false) →
      scanBoardModel e.buildFlags = none ∧
      (pre_build_action e w).world.console = w.console ∧
      (w.fs.denied = [] → (pre_build_action e w).error = none) := by
  intro e w h
  have hnone := scanBoardModel_eq_none h
  refine ⟨hnone, ?_, ?_⟩
  · rw [pre_build_action_console, logLines_eq_nil_of_none hnone, List.append_nil]
  · intro hden
    rcases @makedirs_ok_of_denied_nil (firmwareDir e) w.fs hden with ⟨fs', hm⟩
    rw [pre_build_action_of_ok hm]

/-- Witness for C4: a flags list with no marker, on a fresh world. -/
theorem C4_witness :
    scanBoardModel ["OTHER=1"] = none ∧
    (pre_build_action { buildFlags := ["OTHER=1"], projectDir := ["p"] }
        { console := ["x"], fs := { dirs := [], denied := [] } }).world.console = ["x"] ∧
    (pre_build_action { buildFlags := ["OTHER=1"], projectDir := ["p"] }
        { console := ["x"], fs := { dirs := [], denied := [] } }).error = none := by
  have h := C4_theorem { buildFlags := ["OTHER=1"], projectDir := ["p"] }
    { console := ["x"], fs := { dirs := [], denied := [] } } (by decide)
  exact ⟨h.1, h.2.1, h.2.2 rfl⟩

/-- C5: the hook's output directory is the project root joined with the
literal segment firmware, and whenever the hook runs without a filesystem
error, that directory exists afterwards. -/
theorem C5_theorem :
    ∀ (e : Env) (w : World),
      firmwareDir e = e.projectDir ++ ["firmware"] ∧
      ((pre_build_action e w).error = none →
        firmwareDir e ∈ (pre_build_action e w).world.fs.dirs) := by
  intro e w
  refine ⟨rfl, ?_⟩
  intro h
  exact makedirs_ok_mem_of_mem_pathPrefixes (pre_build_action_error_none h) _
    (self_mem_pathPrefixes (firmwareDir_ne_nil e))

/-- Witness for C5: project directory tmp/proj on an empty filesystem, with
no pre-existing firmware subdirectory: tmp/proj/firmware exists after. -/
theorem C5_witness :
    ["tmp", "proj", "firmware"] ∈
      (pre_build_action { buildFlags := [], projectDir := ["tmp", "proj"] }
        { console := [], fs := { dirs := [], denied := [] } }).world.fs.dirs :=
  (C5_theorem { buildFlags := [], projectDir := ["tmp", "proj"] }
    { console := [], fs := { dirs := [], denied := [] } }).2 (by decide)

/-- C6: the directory ensurer is idempotent: when a makedirs run on a path
succeeds and yields a filesystem, running makedirs again on the same path
from that filesystem succeeds without error and leaves the filesystem
exactly as it was after the first run. -/
theorem C6_theorem :
    ∀ (p : Path) (fs fs' : FS), makedirs p fs = .ok fs' → makedirs p fs' = .ok fs' := by
  intro p fs fs' h
  exact makedirs_idem h

/-- Witness for C6: a second run on the filesystem produced by a successful
first run returns that filesystem unchanged. -/
theorem C6_witness :
    makedirs ["tmp", "fw"] { dirs := [["tmp"], ["tmp", "fw"]], denied := [] } =
      .ok { dirs := [["tmp"], ["tmp", "fw"]], denied := [] } :=
  C6_theorem ["tmp", "fw"] { dirs := [], denied := [] }
    { dirs := [["tmp"], ["tmp", "fw"]], denied := [] } (by rfl)

/-- C7: the hook reports an error exactly when directory creation meets a
denied missing ancestor of the firmware directory, its only failure mode;
every reported error is precisely the one makedirs raised, propagated with
no local handling or retry; and the error outcome does not depend on the
build flags, so absence of the board-model flag never causes a failure. -/
theorem C7_theorem :
    ∀ (e : Env) (w : World),
      ((∃ err, (pre_build_action e w).error = some err) ↔
        ∃ q ∈ pathPrefixes (firmwareDir e), q ∈ w.fs.denied ∧ q ∉ w.fs.dirs) ∧
      (∀ err, (pre_build_action e w).error = some err →
        makedirs (firmwareDir e) w.fs = .error err) ∧
      (∀ flags',
        (pre_build_action { buildFlags := flags', projectDir := e.projectDir } w).error =
        (pre_build_action e w).error) := by
  intro e w
  refine ⟨?_, ?_, ?_⟩
  · rw [← makedirs_error_iff]
    constructor
    · rintro ⟨err, herr⟩
      exact ⟨err, pre_build_action_error_some herr⟩
    · rintro ⟨err, herr⟩
      exact ⟨err, by rw [pre_build_action_of_error herr]⟩
  · intro err herr
    exact pre_build_action_error_some herr
  · intro flags'
    exact pre_build_action_error_flag_free e w flags'

/-- Witness for C7: with the project directory itself denied and missing,
the hook reports an error. -/
theorem C7_witness :
    ∃ err,
      (pre_build_action { buildFlags := [], projectDir := ["p"] }
        { console := [], fs := { dirs := [], denied := [["p"]] } }).error = some err :=
  (C7_theorem { buildFlags := [], projectDir := ["p"] }
    { console := [], fs := { dirs := [], denied := [["p"]] } }).1.mpr
    ⟨["p"], by decide, by decide, by decide⟩

/-- C8: when the first marker-containing flag splits to the empty value, as
the flag that is exactly BOARD_MODEL= does, the scan still stops at that
flag and returns the empty string, but the truthiness test treats it like
an absent value and the hook prints nothing. -/
theorem C8_theorem :
    ∀ (l1 : List String) (f : String) (l2 : List String) (pd : Path) (w : World),
      (∀ g ∈ l1, pyContains g boardModelMarker = false) →
      pyContains f boardModelMarker = true →
      (pySplitEq f)[1]? = some ("") →
      scanBoardModel (l1 ++ f :: l2) = some ("") ∧
      (pre_build_action { buildFlags := l1 ++ f :: l2, projectDir := pd } w).world.console =
        w.console := by
  intro l1 f l2 pd w h1 h2 h3
  have hscan : scanBoardModel (l1 ++ f :: l2) = some ("") := by
    rw [scanBoardModel_first_match h1 h2 l2, h3]
  refine ⟨hscan, ?_⟩
  rw [pre_build_action_console]
  show w.console ++ logLines (l1 ++ f :: l2) = w.console
  rw [logLines_eq_nil_of_empty hscan, List.append_nil]

/-- Witness for C8: the flag BOARD_MODEL= after a non-matching flag stops
the scan with the empty value and nothing is printed. -/
theorem C8_witness :
    scanBoardModel (["OTHER=1"] ++ "BOARD_MODEL=" :: []) = some ("") ∧
    (pre_build_action
        { buildFlags := ["OTHER=1"] ++ "BOARD_MODEL=" :: [], projectDir := ["p"] }
        { console := [], fs := { dirs := [], denied := [] } }).world.console = [] :=
  C8_theorem ["OTHER=1"] ("BOARD_MODEL=") [] ["p"]
    { console := [], fs := { dirs := [], denied := [] } } (by decide) (by decide) (by decide)

/-- C9: directory creation creates every missing ancestor of the firmware
directory, so the hook succeeds even when the project directory itself does
not exist yet: with nothing denied it reports no error, and whenever it
reports no error every ancestor of the firmware directory exists after. -/
theorem C9_theorem :
    ∀ (e : Env) (w : World),
      (w.fs.denied = [] → (pre_build_action e w).error = none) ∧
      ((pre_build_action e w).error = none →
        ∀ q ∈ pathPrefixes (firmwareDir e), q ∈ (pre_build_action e w).world.fs.dirs) := by
  intro e w
  constructor
  · intro hden
    rcases @makedirs_ok_of_denied_nil (firmwareDir e) w.fs hden with ⟨fs', hm⟩
    rw [pre_build_action_of_ok hm]
  · intro h
    exact makedirs_ok_mem_of_mem_pathPrefixes (pre_build_action_error_none h)

/-- Witness for C9: a wholly empty filesystem, in which the project
directory tmp/proj does not exist: the run succeeds and the parent tmp
exists afterwards. -/
theorem C9_witness :
    (pre_build_action { buildFlags := [], projectDir := ["tmp", "proj"] }
        { console := [], fs := { dirs := [], denied := [] } }).error = none ∧
    ["tmp"] ∈ (pre_build_action { buildFlags := [], projectDir := ["tmp", "proj"] }
        { console := [], fs := { dirs := [], denied := [] } }).world.fs.dirs := by
  have h := C9_theorem { buildFlags := [], projectDir := ["tmp", "proj"] }
    { console := [], fs := { dirs := [], denied := [] } }
  exact ⟨h.1 rfl, h.2 (h.1 rfl) ["tmp"] (by decide)⟩

/-- C10: the hook leaves the environment, hence the build flags and the
project directory, unchanged; its only observable effects are appending
the log lines, at most one, to the console, which happens also when
directory creation then fails, and growing the directory set by ancestors
of the firmware directory only, with the denied set untouched. -/
theorem C10_theorem :
    ∀ (e : Env) (w : World),
      (pre_build_action e w).env = e ∧
      (pre_build_action e w).world.console = w.console ++ logLines e.buildFlags ∧
      (logLines e.buildFlags).length ≤ 1 ∧
      (pre_build_action e w).world.fs.denied = w.fs.denied ∧
      (∀ q ∈ w.fs.dirs, q ∈ (pre_build_action e w).world.fs.dirs) ∧
      (∀ q ∈ (pre_build_action e w).world.fs.dirs,
        q ∈ w.fs.dirs ∨ q ∈ pathPrefixes (firmwareDir e)) := by
  intro e w
  refine ⟨pre_build_action_env e w, pre_build_action_console e w,
    logLines_length_le _, ?_, ?_, ?_⟩
  · cases hm : makedirs (firmwareDir e) w.fs with
    | ok fs1 =>
      rw [pre_build_action_of_ok hm]
      exact makedirs_ok_denied hm
    | error err =>
      rw [pre_build_action_of_error hm]
  · cases hm : makedirs (firmwareDir e) w.fs with
    | ok fs1 =>
      rw [pre_build_action_of_ok hm]
      exact makedirs_ok_dirs_grow hm
    | error err =>
      rw [pre_build_action_of_error hm]
      intro q hq
      exact hq
  · cases hm : makedirs (firmwareDir e) w.fs with
    | ok fs1 =>
      rw [pre_build_action_of_ok hm]
      exact makedirs_ok_dirs_cases hm
    | error err =>
      rw [pre_build_action_of_error hm]
      intro q hq
      exact Or.inl hq

/-- Witness for C10: on a run where the directory creation fails because
the project directory is denied, the log line is still appended to the
console; and on a successful run a pre-existing unrelated directory is
still present afterwards. -/
theorem C10_witness :
    (pre_build_action { buildFlags := ["BOARD_MODEL=esp32"], projectDir := ["p"] }
        { console := [], fs := { dirs := [], denied := [["p"]] } }).world.console =
      [] ++ logLines ["BOARD_MODEL=esp32"] ∧
    ["q"] ∈ (pre_build_action { buildFlags := [], projectDir := ["p"] }
        { console := [], fs := { dirs := [["q"]], denied := [] } }).world.fs.dirs := by
  constructor
  · exact (C10_theorem { buildFlags := ["BOARD_MODEL=esp32"], projectDir := ["p"] }
      { console := [], fs := { dirs := [], denied := [["p"]] } }).2.1
  · exact (C10_theorem { buildFlags := [], projectDir := ["p"] }
      { console := [], fs := { dirs := [["q"]], denied := [] } }).2.2.2.2.1 ["q"] (by decide)


end PreBuild
